import Mathlib

/-!
Verification of the `Near2Far` near-field-to-far-field transformation engine
(`tidy3d/plugins/near2far/near2far.py`).

The numeric code is embedded over `ℝ` and `ℂ`.  Python floats become real
numbers, complex arrays become lists of lists of complex numbers, and the
fallible constructor becomes an `Except`-valued function.  `numpy.arctan2 y x`
is embedded as `Complex.arg (x + y * I)`, which has the same value on every
input (range `(-π, π]`, `arg 0 = 0`).
-/

open scoped Classical

noncomputable section

/-- Modelled from the spec: the physical constant `c0` (speed of light, in the
package's micrometre units) used in `wavenumber k0 = 2π·frequency/c0`
(spec §3).  The constants module itself is not part of the sources in scope. -/
def C_0 : ℝ := 2.99792458e14

/-- Modelled from the spec: the physical constant `η0` (vacuum wave impedance)
used by the far-field evaluator formulas (spec §4.4).  The constants module
itself is not part of the sources in scope; only positivity of the constant
matters for the properties proved below. -/
def ETA_0 : ℝ := 376.730313668

theorem ETA_0_pos : 0 < ETA_0 := by norm_num [ETA_0]

/-- `Near2Far._car_2_sph`: cartesian to spherical coordinates.
`r = √(x²+y²+z²)`, `θ = arccos (z/r)`, `φ = arctan2 y x = arg (x + y i)`. -/
def car_2_sph (x y z : ℝ) : ℝ × ℝ × ℝ :=
  let r := Real.sqrt (x ^ 2 + y ^ 2 + z ^ 2)
  (r, Real.arccos (z / r), Complex.arg (x + y * Complex.I))

/-- `Near2Far._sph_2_car`: spherical to cartesian coordinates. -/
def sph_2_car (r θ φ : ℝ) : ℝ × ℝ × ℝ :=
  let r_sin_theta := r * Real.sin θ
  (r_sin_theta * Real.cos φ, r_sin_theta * Real.sin φ, r * Real.cos θ)

/-- `Near2Far._sph_2_car_field`: spherical vector-field components to
cartesian components at angles `(θ, φ)`. -/
def sph_2_car_field (Ar Atheta Aphi θ φ : ℝ) : ℝ × ℝ × ℝ :=
  let sin_theta := Real.sin θ
  let cos_theta := Real.cos θ
  let sin_phi := Real.sin φ
  let cos_phi := Real.cos φ
  (Ar * sin_theta * cos_phi + Atheta * cos_theta * cos_phi - Aphi * sin_phi,
   Ar * sin_theta * sin_phi + Atheta * cos_theta * sin_phi + Aphi * cos_phi,
   Ar * cos_theta - Atheta * sin_theta)

/-- A `FieldMonitor`'s geometry as consumed by `Near2Far`: a name (used for
diagnostics and for the orientation-sign heuristic), a 3D center and a
3-component extent.  -/
structure FieldMonitor where
  name : String
  center : Fin 3 → ℝ
  size : Fin 3 → ℝ

/-- A monitor's near-field dataset, as consumed through the collaborator
interface (spec §6): component keys, the stored frequencies, and the
colocation operation, embedded as evaluation of each component at a
frequency and a 3D point. -/
structure FieldData where
  components : List String
  freqs : List ℝ
  values : String → ℝ → ℝ → ℝ → ℝ → ℂ

/-- `SimulationData`: monitor-name-keyed collection of field datasets. -/
def SimulationData := List (String × FieldData)

/-- The configuration errors raised by `_get_data_from_monitor`, with the data
interpolated into the Python message carried as constructor arguments. -/
inductive SetupError where
  | notASurface (monName : String)
  | noMonitorData (monName : String)
  | missingEField (monName : String)
  | missingHField (monName : String)
  | frequencyNotFound (freq : ℝ) (monName : String)

/-- Python's `sum(bool(size) for size in mon.size)`: the number of nonzero
extents of a monitor. -/
def countNonzeroSizes (s : Fin 3 → ℝ) : ℕ :=
  (if s 0 ≠ 0 then 1 else 0) + (if s 1 ≠ 0 then 1 else 0) + (if s 2 ≠ 0 then 1 else 0)

/-- `np.argmin` on the three extents: the first index attaining the minimum. -/
def argmin3 (s : Fin 3 → ℝ) : Fin 3 :=
  if s 0 ≤ s 1 then (if s 0 ≤ s 2 then 0 else 2)
  else (if s 1 ≤ s 2 then 1 else 2)

/-- The per-axis branch of `_get_data_from_monitor`: tangential component
names `(u, v)`, in-plane axis indices `idx_uv`, and orientation signs.
Axis 0 ↦ `("y","z"), [1,2], [-1,1]`; axis 1 ↦ `("x","z"), [0,2], [1,-1]`;
axis 2 ↦ `("x","y"), [0,1], [-1,1]`. -/
def branchParams (monAxis : Fin 3) : String × String × Fin 3 × Fin 3 × ℝ × ℝ :=
  if monAxis = 0 then ("y", "z", 1, 2, -1, 1)
  else if monAxis = 1 then ("x", "z", 0, 2, 1, -1)
  else ("x", "y", 0, 1, -1, 1)

/-- `np.linspace start stop num`: `num` evenly spaced points from `start` to
`stop` inclusive (a single point sits at `start`). -/
def linspace (start stop : ℝ) (num : ℕ) : List ℝ :=
  (List.range num).map
    (fun i : ℕ => start + (stop - start) * (i : ℝ) / ((num - 1 : ℕ) : ℝ))

/-- A 2D array laid out on the outer product of two coordinate sequences,
row index running over the first sequence. -/
def build2 (uPts vPts : List ℝ) (f : ℝ → ℝ → ℂ) : List (List ℂ) :=
  uPts.map (fun u => vPts.map (fun v => f u v))

/-- The shape of `np.squeeze` applied to an array of the given shape: every
axis of extent 1 is removed (not only the monitor's normal axis — an
in-plane axis that happens to hold a single collocation point is collapsed
too). -/
def squeezeShape (shape : List ℕ) : List ℕ := shape.filter (fun n => n ≠ 1)

/-- `Near2Far.Near2FarData`: grid, center, equivalent surface currents and
normal axis extracted for one monitor.  The meshgrid `grid_points` is kept as
its two generating coordinate sequences (`grid_points[0][:,0]` and
`grid_points[1][0,:]`); `J = (J1, J2)` and `M = (M1, M2)` are the two pairs
of current arrays, whose entries are kept laid out on the full `u × v` grid
(the layout numpy broadcasting restores downstream), while `arrShape`
records the numpy shape the four arrays actually carry after `np.squeeze`
(the singleton normal axis, and any singleton in-plane axis, removed). -/
structure Near2FarData where
  uPts : List ℝ
  vPts : List ℝ
  center : Fin 3 → ℝ
  J1 : List (List ℂ)
  J2 : List (List ℂ)
  M1 : List (List ℂ)
  M2 : List (List ℂ)
  arrShape : List ℕ
  mon_axis : Fin 3

/-- The successful branch of `_get_data_from_monitor`: build the collocation
grid, colocate the tangential fields at the target frequency, apply the
orientation signs (flipped when `'-'` occurs in the monitor name), and
derive `J = (signs[0]·Hv, signs[1]·Hu)`, `M = (signs[1]·Ev, signs[0]·Eu)`. -/
def extractData (frequency k0 : ℝ) (ppw : ℕ) (fd : FieldData)
    (mon : FieldMonitor) : Near2FarData :=
  let monAxis := argmin3 mon.size
  let p := branchParams monAxis
  let uName := p.1
  let vName := p.2.1
  let idxU := p.2.2.1
  let idxV := p.2.2.2.1
  let sign0 := p.2.2.2.2.1
  let sign1 := p.2.2.2.2.2
  let wavelength := 2 * Real.pi / k0
  let numPts : Fin 3 → ℕ :=
    fun idx => (⌈(ppw : ℝ) * mon.size idx / wavelength⌉).toNat
  let uPts := linspace (mon.center idxU - mon.size idxU / 2)
    (mon.center idxU + mon.size idxU / 2) (numPts idxU)
  let vPts := linspace (mon.center idxV - mon.size idxV / 2)
    (mon.center idxV + mon.size idxV / 2) (numPts idxV)
  let s0 := if mon.name.data.contains '-' then -1 * sign0 else sign0
  let s1 := if mon.name.data.contains '-' then -1 * sign1 else sign1
  let pos : ℝ → ℝ → Fin 3 → ℝ := fun u v i =>
    if i = monAxis then mon.center monAxis else if i = idxU then u else v
  let sample : String → ℝ → ℝ → ℂ := fun comp u v =>
    fd.values comp frequency (pos u v 0) (pos u v 1) (pos u v 2)
  { uPts := uPts
    vPts := vPts
    center := mon.center
    J1 := build2 uPts vPts (fun u v => (s0 : ℂ) * sample ("H" ++ vName) u v)
    J2 := build2 uPts vPts (fun u v => (s1 : ℂ) * sample ("H" ++ uName) u v)
    M1 := build2 uPts vPts (fun u v => (s1 : ℂ) * sample ("E" ++ vName) u v)
    M2 := build2 uPts vPts (fun u v => (s0 : ℂ) * sample ("E" ++ uName) u v)
    arrShape := squeezeShape [numPts idxU, numPts idxV]
    mon_axis := monAxis }

/-- `Near2Far._get_data_from_monitor`: validate the monitor is a surface,
look up its dataset, check the tangential components are stored, check the
requested frequency is stored, and extract grid and currents. -/
def getDataFromMonitor (sd : SimulationData) (frequency k0 : ℝ) (ppw : ℕ)
    (mon : FieldMonitor) : Except SetupError Near2FarData :=
  if countNonzeroSizes mon.size ≠ 2 then .error (.notASurface mon.name)
  else
    match List.lookup mon.name sd with
    | none => .error (.noMonitorData mon.name)
    | some fd =>
      let p := branchParams (argmin3 mon.size)
      let uName := p.1
      let vName := p.2.1
      if !(fd.components.contains ("E" ++ uName) &&
           fd.components.contains ("E" ++ vName)) then
        .error (.missingEField mon.name)
      else if !(fd.components.contains ("H" ++ uName) &&
           fd.components.contains ("H" ++ vName)) then
        .error (.missingHField mon.name)
      else if frequency ∉ fd.freqs then
        .error (.frequencyNotFound frequency mon.name)
      else .ok (extractData frequency k0 ppw fd mon)

/-- The construction loop `for mon in mons: self.data.append(...)`, stopping
at the first failing monitor. -/
def extractAll (sd : SimulationData) (frequency k0 : ℝ) (ppw : ℕ) :
    List FieldMonitor → Except SetupError (List Near2FarData)
  | [] => .ok []
  | mon :: rest =>
    match getDataFromMonitor sd frequency k0 ppw mon with
    | .error e => .error e
    | .ok d =>
      match extractAll sd frequency k0 ppw rest with
      | .error e => .error e
      | .ok ds => .ok (d :: ds)

/-- Everything `Near2Far.__init__` can raise: a `SetupError` from monitor
extraction, or Python's `ZeroDivisionError` from dividing the origin
accumulator by `len(self.data) = 0`. -/
inductive Near2FarError where
  | setup (e : SetupError)
  | zeroDivision

/-- The engine state fixed by `Near2Far.__init__`. -/
structure Near2Far where
  spacetime_sign : ℝ
  frequency : ℝ
  k0 : ℝ
  data : List Near2FarData
  origin : Fin 3 → ℝ

/-- `Near2Far.__init__`: set `spacetime_sign = 1`, `k0 = 2π·frequency/c0`,
extract each monitor's data in order, then set the origin to the summed
centers divided by the number of monitors (Python raises `ZeroDivisionError`
when that number is zero). -/
def mkNear2Far (sd : SimulationData) (mons : List FieldMonitor)
    (frequency : ℝ) (ppw : ℕ) : Except Near2FarError Near2Far :=
  let k0 := 2 * Real.pi * frequency / C_0
  match extractAll sd frequency k0 ppw mons with
  | .error e => .error (.setup e)
  | .ok data =>
    if data.length = 0 then .error .zeroDivision
    else .ok
      { spacetime_sign := 1
        frequency := frequency
        k0 := k0
        data := data
        origin := fun i => (data.map (fun d => d.center i)).sum / data.length }

/-- `np.trapz ys xs`: trapezoidal integration of samples `ys` against sample
points `xs`. -/
def trapzL (xs : List ℝ) (ys : List ℂ) : ℂ :=
  ∑ k in Finset.range (xs.length - 1),
    ((xs.getD (k + 1) 0 - xs.getD k 0 : ℝ) : ℂ) * (ys.getD (k + 1) 0 + ys.getD k 0) / 2

/-- `np.trapz (np.trapz A u, axis=0) v`: nested trapezoidal integration of a
2D array over both in-plane axes, inner axis (rows, `u`) first. -/
def trapz2 (uPts vPts : List ℝ) (A : List (List ℂ)) : ℂ :=
  trapzL vPts ((List.range vPts.length).map
    (fun j => trapzL uPts (A.map (fun row => row.getD j 0))))

/-- Elementwise product of two 2D arrays. -/
def mul2 (A B : List (List ℂ)) : List (List ℂ) :=
  List.zipWith (fun r s => List.zipWith (· * ·) r s) A B

/-- Elementwise scaling of a 2D array by a complex constant. -/
def smul2 (c : ℂ) (A : List (List ℂ)) : List (List ℂ) :=
  A.map (fun row => row.map (fun z => c * z))

/-- The pointwise far-field phase factor of `_radiation_vectors_per_monitor`:
`exp(-s·i·k0·xp·sinθcosφ)·exp(-s·i·k0·yp·sinθsinφ)·exp(-s·i·k0·zp·cosθ)`,
where along the monitor's normal axis the offset is the monitor-center
offset `w0` and along the two in-plane axes it is the grid coordinate offset
(axis 0: `xp=w0, yp=u-o₁, zp=v-o₂`; axis 1: `xp=u-o₀, yp=w0, zp=v-o₂`;
axis 2: `xp=u-o₀, yp=v-o₁, zp=w0`). -/
def monPhase (sign k0 : ℝ) (origin : Fin 3 → ℝ) (θ φ : ℝ)
    (d : Near2FarData) : ℝ → ℝ → ℂ := fun u v =>
  let w0 := d.center d.mon_axis - origin d.mon_axis
  let xp := if d.mon_axis = 0 then w0 else u - origin 0
  let yp := if d.mon_axis = 0 then u - origin 1
    else if d.mon_axis = 1 then w0 else v - origin 1
  let zp := if d.mon_axis = 2 then w0 else v - origin 2
  Complex.exp (-(sign : ℂ) * Complex.I * k0 * xp * Real.sin θ * Real.cos φ) *
  Complex.exp (-(sign : ℂ) * Complex.I * k0 * yp * Real.sin θ * Real.sin φ) *
  Complex.exp (-(sign : ℂ) * Complex.I * k0 * zp * Real.cos θ)

/-- One surface integral of `_radiation_vectors_per_monitor`: a stored 2D
current array is multiplied pointwise by the phase factor on the grid and
integrated by nested trapezoids. -/
def integMon (sign k0 : ℝ) (origin : Fin 3 → ℝ) (θ φ : ℝ) (d : Near2FarData)
    (A : List (List ℂ)) : ℂ :=
  trapz2 d.uPts d.vPts
    (mul2 A (build2 d.uPts d.vPts (monPhase sign k0 origin θ φ d)))

/-- The two cartesian indices receiving the integrated tangential currents
(`source_indices` in `_radiation_vectors_per_monitor`). -/
def sourceIndices (monAxis : Fin 3) : Fin 3 × Fin 3 :=
  if monAxis = 0 then (1, 2) else if monAxis = 1 then (0, 2) else (0, 1)

/-- `Near2Far._radiation_vectors_per_monitor`: integrate `J·phase` and
`M·phase` into 3-vectors (zero along the normal axis) and project onto the
spherical unit vectors, giving `(N_θ, N_φ, L_θ, L_φ)`. -/
def radiationVectorsPerMonitor (sign k0 : ℝ) (origin : Fin 3 → ℝ) (θ φ : ℝ)
    (d : Near2FarData) : ℂ × ℂ × ℂ × ℂ :=
  let sin_theta := Real.sin θ
  let cos_theta := Real.cos θ
  let sin_phi := Real.sin φ
  let cos_phi := Real.cos φ
  let si := sourceIndices d.mon_axis
  let J : Fin 3 → ℂ := fun i =>
    if i = si.1 then integMon sign k0 origin θ φ d d.J1
    else if i = si.2 then integMon sign k0 origin θ φ d d.J2 else 0
  let M : Fin 3 → ℂ := fun i =>
    if i = si.1 then integMon sign k0 origin θ φ d d.M1
    else if i = si.2 then integMon sign k0 origin θ φ d d.M2 else 0
  (J 0 * ((cos_theta : ℂ) * cos_phi) + J 1 * ((cos_theta : ℂ) * sin_phi) -
     J 2 * (sin_theta : ℂ),
   -(J 0) * (sin_phi : ℂ) + J 1 * (cos_phi : ℂ),
   M 0 * ((cos_theta : ℂ) * cos_phi) + M 1 * ((cos_theta : ℂ) * sin_phi) -
     M 2 * (sin_theta : ℂ),
   -(M 0) * (sin_phi : ℂ) + M 1 * (cos_phi : ℂ))

/-- `Near2Far._radiation_vectors`: accumulate the per-monitor radiation
vectors over all monitors, starting from `(0, 0, 0, 0)`. -/
def radiationVectors (eng : Near2Far) (θ φ : ℝ) : ℂ × ℂ × ℂ × ℂ :=
  (eng.data.foldl (fun acc d => acc +
     (radiationVectorsPerMonitor eng.spacetime_sign eng.k0 eng.origin θ φ d).1) 0,
   eng.data.foldl (fun acc d => acc +
     (radiationVectorsPerMonitor eng.spacetime_sign eng.k0 eng.origin θ φ d).2.1) 0,
   eng.data.foldl (fun acc d => acc +
     (radiationVectorsPerMonitor eng.spacetime_sign eng.k0 eng.origin θ φ d).2.2.1) 0,
   eng.data.foldl (fun acc d => acc +
     (radiationVectorsPerMonitor eng.spacetime_sign eng.k0 eng.origin θ φ d).2.2.2) 0)

/-- `Near2Far.fields_spherical`: re-reference the observation point to the
engine origin, evaluate the radiation vectors at the re-centered angles,
apply the radial propagation factor, and assemble the `E` and `H`
3-vectors `(·_r, ·_θ, ·_φ)`. -/
def fieldsSpherical (eng : Near2Far) (r θ φ : ℝ) : (Fin 3 → ℂ) × (Fin 3 → ℂ) :=
  let c := sph_2_car r θ φ
  let sph := car_2_sph (c.1 - eng.origin 0) (c.2.1 - eng.origin 1)
    (c.2.2 - eng.origin 2)
  let rv := radiationVectors eng sph.2.1 sph.2.2
  let scalar_proj_r : ℂ := -(eng.spacetime_sign : ℂ) * Complex.I * eng.k0 *
    Complex.exp ((eng.spacetime_sign : ℂ) * Complex.I * eng.k0 * sph.1) /
    (4 * (Real.pi : ℂ) * (sph.1 : ℂ))
  let E_theta := -scalar_proj_r * (rv.2.2.2 + (ETA_0 : ℂ) * rv.1)
  let E_phi := scalar_proj_r * (rv.2.2.1 - (ETA_0 : ℂ) * rv.2.1)
  (![0, E_theta, E_phi], ![0, -E_phi / (ETA_0 : ℂ), E_theta / (ETA_0 : ℂ)])

/-- `Near2Far.power_spherical`: time-averaged Poynting flux
`0.5·Re(E_θ·conj H_φ) + 0.5·Re(−E_φ·conj H_θ)`. -/
def powerSpherical (eng : Near2Far) (r θ φ : ℝ) : ℝ :=
  let EH := fieldsSpherical eng r θ φ
  let power_theta := 0.5 * (EH.1 1 * (starRingEnd ℂ) (EH.2 2)).re
  let power_phi := 0.5 * (-(EH.1 2) * (starRingEnd ℂ) (EH.2 1)).re
  power_theta + power_phi

/-- `Near2Far.radar_cross_section`: re-reference the observation point,
evaluate the radiation vectors, and return
`(k0²/8πη0)·(|L_φ + η0·N_θ|² + |L_θ − η0·N_φ|²)`. -/
def radarCrossSection (eng : Near2Far) (r θ φ : ℝ) : ℝ :=
  let c := sph_2_car r θ φ
  let sph := car_2_sph (c.1 - eng.origin 0) (c.2.1 - eng.origin 1)
    (c.2.2 - eng.origin 2)
  let rv := radiationVectors eng sph.2.1 sph.2.2
  let constant := eng.k0 ^ 2 / (8 * Real.pi * ETA_0)
  let term1 := Complex.abs (rv.2.2.2 + (ETA_0 : ℂ) * rv.1) ^ 2
  let term2 := Complex.abs (rv.2.2.1 - (ETA_0 : ℂ) * rv.2.1) ^ 2
  constant * (term1 + term2)

/-- C8 (amended): the spherical→cartesian→spherical round trip recovers
`(r, θ, φ)` exactly for `r > 0`, `θ ∈ (0, π)` and `φ ∈ (-π, π]`. -/
theorem car_2_sph_sph_2_car (r θ φ : ℝ) (hr : 0 < r) (hθ₀ : 0 < θ)
    (hθ₁ : θ < Real.pi) (hφ₀ : -Real.pi < φ) (hφ₁ : φ ≤ Real.pi) :
    (fun p => car_2_sph p.1 p.2.1 p.2.2) (sph_2_car r θ φ) = (r, θ, φ) := by
  have hs : 0 < Real.sin θ := Real.sin_pos_of_pos_of_lt_pi hθ₀ hθ₁
  have hsq : (r * Real.sin θ * Real.cos φ) ^ 2 + (r * Real.sin θ * Real.sin φ) ^ 2 +
      (r * Real.cos θ) ^ 2 = r ^ 2 := by
    have h1 := Real.sin_sq_add_cos_sq φ
    have h2 := Real.sin_sq_add_cos_sq θ
    linear_combination (r ^ 2 * Real.sin θ ^ 2) * h1 + r ^ 2 * h2
  have hrad : Real.sqrt ((r * Real.sin θ * Real.cos φ) ^ 2 +
      (r * Real.sin θ * Real.sin φ) ^ 2 + (r * Real.cos θ) ^ 2) = r := by
    rw [hsq]; exact Real.sqrt_sq hr.le
  simp only [sph_2_car, car_2_sph]
  refine Prod.ext ?_ (Prod.ext ?_ ?_)
  · simpa using hrad
  · show Real.arccos (r * Real.cos θ / _) = θ
    rw [hrad, mul_comm r (Real.cos θ), mul_div_assoc, div_self hr.ne',
      mul_one, Real.arccos_cos hθ₀.le hθ₁.le]
  · show Complex.arg ((r * Real.sin θ * Real.cos φ : ℝ) +
      (r * Real.sin θ * Real.sin φ : ℝ) * Complex.I) = φ
    have hpos : 0 < r * Real.sin θ := mul_pos hr hs
    have : ((r * Real.sin θ * Real.cos φ : ℝ) +
        (r * Real.sin θ * Real.sin φ : ℝ) * Complex.I) =
        ((r * Real.sin θ : ℝ) : ℂ) * (Real.cos φ + Real.sin φ * Complex.I) := by
      push_cast; ring
    rw [this, Complex.arg_real_mul _ hpos, Complex.ofReal_cos, Complex.ofReal_sin,
      Complex.arg_cos_add_sin_mul_I ⟨hφ₀, hφ₁⟩]

/-- C8, witness for the amended round-trip theorem at
`r = 1`, `θ = π/2`, `φ = 0`. -/
theorem car_2_sph_sph_2_car_witness :
    (0 : ℝ) < 1 ∧
    (fun p => car_2_sph p.1 p.2.1 p.2.2) (sph_2_car 1 (Real.pi / 2) 0) =
      (1, Real.pi / 2, 0) := by
  have hπ := Real.pi_pos
  exact ⟨by norm_num,
    car_2_sph_sph_2_car 1 (Real.pi / 2) 0 (by norm_num) (by linarith)
      (by linarith) (by linarith) hπ.le⟩

/-- C8, counterexample to the unrestricted claim: at `φ = 2π` the round trip
returns azimuth `0`, not `2π`. -/
theorem car_2_sph_sph_2_car_counterexample :
    (fun p => car_2_sph p.1 p.2.1 p.2.2) (sph_2_car 1 (Real.pi / 2) (2 * Real.pi)) ≠
      (1, Real.pi / 2, 2 * Real.pi) := by
  have hπ := Real.pi_pos
  have h1 : sph_2_car 1 (Real.pi / 2) (2 * Real.pi) = (1, 0, 0) := by
    simp [sph_2_car, Real.sin_pi_div_two, Real.cos_pi_div_two,
      Real.sin_two_pi, Real.cos_two_pi]
  have h2 : car_2_sph 1 0 0 = (1, Real.pi / 2, 0) := by
    have hs : Real.sqrt ((1 : ℝ) ^ 2 + 0 ^ 2 + 0 ^ 2) = 1 := by
      norm_num
    simp [car_2_sph, hs, Real.arccos_zero, Complex.arg_one]
  intro h
  rw [h1] at h
  simp only [h2] at h
  have h3 := congrArg (fun p : ℝ × ℝ × ℝ => p.2.2) h
  simp only at h3
  nlinarith [h3]

/-- Fixture engine used by witnesses: an engine value with no monitor data. -/
def engW : Near2Far :=
  { spacetime_sign := 1, frequency := 1, k0 := 1, data := [], origin := fun _ => 0 }

/-- C1: `fieldsSpherical` re-references the query point to the engine origin,
evaluates the radiation vectors at the re-centered angles, and returns `E`,
`H` with `E_r = H_r = 0`, `E_θ = −scalar·(L_φ + η0·N_θ)`,
`E_φ = scalar·(L_θ − η0·N_φ)`, `H_θ = −E_φ/η0`, `H_φ = E_θ/η0`, where
`scalar = −spacetime_sign·i·k0·exp(spacetime_sign·i·k0·r)/(4πr)` at the
re-centered radius. -/
theorem fieldsSpherical_formulas (eng : Near2Far) (r θ φ : ℝ) (hr : 0 < r) :
    let c := sph_2_car r θ φ
    let loc := car_2_sph (c.1 - eng.origin 0) (c.2.1 - eng.origin 1)
      (c.2.2 - eng.origin 2)
    let rv := radiationVectors eng loc.2.1 loc.2.2
    let scalar : ℂ := -(eng.spacetime_sign : ℂ) * Complex.I * eng.k0 *
      Complex.exp ((eng.spacetime_sign : ℂ) * Complex.I * eng.k0 * loc.1) /
      (4 * (Real.pi : ℂ) * (loc.1 : ℂ))
    let E := (fieldsSpherical eng r θ φ).1
    let H := (fieldsSpherical eng r θ φ).2
    E 0 = 0 ∧ E 1 = -scalar * (rv.2.2.2 + (ETA_0 : ℂ) * rv.1) ∧
      E 2 = scalar * (rv.2.2.1 - (ETA_0 : ℂ) * rv.2.1) ∧
      H 0 = 0 ∧ H 1 = -(E 2) / (ETA_0 : ℂ) ∧ H 2 = E 1 / (ETA_0 : ℂ) := by
  refine ⟨?_, ?_, ?_, ?_, ?_, ?_⟩ <;>
    simp [fieldsSpherical, Matrix.cons_val_zero, Matrix.cons_val_one,
      Matrix.head_cons]

/-- C1, witness at the fixture engine and `(r, θ, φ) = (1, 0, 0)`. -/
theorem fieldsSpherical_formulas_witness :
    (0 : ℝ) < 1 ∧
    (let c := sph_2_car 1 0 0
     let loc := car_2_sph (c.1 - engW.origin 0) (c.2.1 - engW.origin 1)
       (c.2.2 - engW.origin 2)
     let rv := radiationVectors engW loc.2.1 loc.2.2
     let scalar : ℂ := -(engW.spacetime_sign : ℂ) * Complex.I * engW.k0 *
       Complex.exp ((engW.spacetime_sign : ℂ) * Complex.I * engW.k0 * loc.1) /
       (4 * (Real.pi : ℂ) * (loc.1 : ℂ))
     let E := (fieldsSpherical engW 1 0 0).1
     let H := (fieldsSpherical engW 1 0 0).2
     E 0 = 0 ∧ E 1 = -scalar * (rv.2.2.2 + (ETA_0 : ℂ) * rv.1) ∧
       E 2 = scalar * (rv.2.2.1 - (ETA_0 : ℂ) * rv.2.1) ∧
       H 0 = 0 ∧ H 1 = -(E 2) / (ETA_0 : ℂ) ∧ H 2 = E 1 / (ETA_0 : ℂ)) :=
  ⟨by norm_num, fieldsSpherical_formulas engW 1 0 0 (by norm_num)⟩

/-- The real part of `z·conj(z/η0)` is the non-negative value `‖z‖²/η0`. -/
theorem re_mul_conj_div_nonneg (z : ℂ) :
    0 ≤ (z * (starRingEnd ℂ) (z / (ETA_0 : ℂ))).re := by
  have h : z * (starRingEnd ℂ) (z / (ETA_0 : ℂ)) =
      ((Complex.normSq z / ETA_0 : ℝ) : ℂ) := by
    rw [map_div₀, Complex.conj_ofReal, mul_div_assoc', Complex.mul_conj,
      Complex.ofReal_div]
  rw [h, Complex.ofReal_re]
  exact div_nonneg (Complex.normSq_nonneg z) ETA_0_pos.le

/-- C2: for every engine and observation point with `r > 0`, both
`radarCrossSection` and `powerSpherical` return non-negative real values. -/
theorem radarCrossSection_powerSpherical_nonneg (eng : Near2Far) (r θ φ : ℝ)
    (hr : 0 < r) :
    0 ≤ radarCrossSection eng r θ φ ∧ 0 ≤ powerSpherical eng r θ φ := by
  constructor
  · have hc : 0 ≤ eng.k0 ^ 2 / (8 * Real.pi * ETA_0) := by
      apply div_nonneg (sq_nonneg _)
      have := Real.pi_pos
      have := ETA_0_pos
      positivity
    exact mul_nonneg hc (add_nonneg (sq_nonneg _) (sq_nonneg _))
  · obtain ⟨a, b, hE⟩ : ∃ a b : ℂ, fieldsSpherical eng r θ φ =
        (![0, a, b], ![0, -b / (ETA_0 : ℂ), a / (ETA_0 : ℂ)]) := ⟨_, _, rfl⟩
    have h1 := re_mul_conj_div_nonneg a
    have h2 := re_mul_conj_div_nonneg (-b)
    simp only [powerSpherical, hE, Matrix.cons_val_one, Matrix.head_cons,
      Matrix.cons_val_two, Matrix.tail_cons, neg_div]
    rw [show -(b / (ETA_0 : ℂ)) = -b / (ETA_0 : ℂ) from (neg_div _ _).symm] at *
    nlinarith [h1, h2]

/-- C2, witness at the fixture engine and `(r, θ, φ) = (1, 0, 0)`. -/
theorem radarCrossSection_powerSpherical_nonneg_witness :
    (0 : ℝ) < 1 ∧ (0 ≤ radarCrossSection engW 1 0 0 ∧ 0 ≤ powerSpherical engW 1 0 0) :=
  ⟨by norm_num, radarCrossSection_powerSpherical_nonneg engW 1 0 0 (by norm_num)⟩

/-- C10: constructing with an empty monitor list passes every configuration
check, reaches the origin computation, and fails there with the
division-by-zero error (`len(self.data) = 0`) rather than with any
`SetupError`. -/
theorem mkNear2Far_empty_monitors (sd : SimulationData) (f : ℝ) (p : ℕ) :
    mkNear2Far sd [] f p = .error .zeroDivision ∧
    ∀ e : SetupError, mkNear2Far sd [] f p ≠ .error (.setup e) := by
  refine ⟨rfl, fun e h => ?_⟩
  rw [show mkNear2Far sd [] f p = .error .zeroDivision from rfl] at h
  exact Near2FarError.noConfusion (Except.error.inj h)

/-- C5: any monitor whose extents do not have exactly two nonzero components
is rejected by `_get_data_from_monitor` with the "not a surface" error; in
particular constructing from a monitor with extents `(1, 1, 1)` fails with
that error. -/
theorem notSurface_rejected :
    (∀ (sd : SimulationData) (f k0 : ℝ) (p : ℕ) (mon : FieldMonitor),
      countNonzeroSizes mon.size ≠ 2 →
      getDataFromMonitor sd f k0 p mon = .error (.notASurface mon.name)) ∧
    (∀ (sd : SimulationData) (f : ℝ) (p : ℕ) (mon : FieldMonitor),
      mon.size = ![1, 1, 1] →
      mkNear2Far sd [mon] f p = .error (.setup (.notASurface mon.name))) := by
  have part1 : ∀ (sd : SimulationData) (f k0 : ℝ) (p : ℕ) (mon : FieldMonitor),
      countNonzeroSizes mon.size ≠ 2 →
      getDataFromMonitor sd f k0 p mon = .error (.notASurface mon.name) := by
    intro sd f k0 p mon h
    rw [getDataFromMonitor, if_pos h]
  refine ⟨part1, fun sd f p mon h => ?_⟩
  have hcnt : countNonzeroSizes mon.size ≠ 2 := by
    rw [h]
    simp [countNonzeroSizes]
  rw [mkNear2Far, extractAll, part1 sd f _ p mon hcnt]

/-- Fixture monitor with all-zero extents. -/
def monA : FieldMonitor := { name := "mon_a", center := fun _ => 0, size := fun _ => 0 }

/-- Fixture monitor with extents `(1, 1, 1)`. -/
def monB : FieldMonitor := { name := "mon_b", center := fun _ => 0, size := ![1, 1, 1] }

/-- C5, witness: a degenerate monitor is rejected by extraction and the
`(1,1,1)` monitor is rejected by construction. -/
theorem notSurface_rejected_witness :
    getDataFromMonitor [] 1 1 10 monA = .error (.notASurface "mon_a") ∧
    mkNear2Far [] [monB] 1 10 = .error (.setup (.notASurface "mon_b")) := by
  constructor
  · exact notSurface_rejected.1 [] 1 1 10 monA (by simp [monA, countNonzeroSizes])
  · exact notSurface_rejected.2 [] 1 10 monB rfl

/-- Inversion for extraction: a successful `_get_data_from_monitor` found the
monitor's dataset and returned exactly the extracted data. -/
theorem getDataFromMonitor_ok {sd : SimulationData} {f k0 : ℝ} {p : ℕ}
    {mon : FieldMonitor} {d : Near2FarData}
    (h : getDataFromMonitor sd f k0 p mon = .ok d) :
    ∃ fd, List.lookup mon.name sd = some fd ∧ d = extractData f k0 p fd mon := by
  rw [getDataFromMonitor] at h
  split at h
  · exact absurd h (by simp)
  split at h
  · exact absurd h (by simp)
  rename_i fd heq
  refine ⟨fd, heq, ?_⟩
  dsimp only [] at h
  repeat' split at h
  all_goals first
    | exact (Except.ok.inj h).symm
    | exact absurd h (by simp)

/-- Success conditions for extraction: a surface monitor with a dataset that
has the tangential components and the requested frequency extracts
successfully. -/
theorem getDataFromMonitor_eq_ok {sd : SimulationData} {f k0 : ℝ} {p : ℕ}
    {mon : FieldMonitor} {fd : FieldData}
    (hcnt : countNonzeroSizes mon.size = 2)
    (hlk : List.lookup mon.name sd = some fd)
    (hE : ("E" ++ (branchParams (argmin3 mon.size)).1) ∈ fd.components ∧
          ("E" ++ (branchParams (argmin3 mon.size)).2.1) ∈ fd.components)
    (hH : ("H" ++ (branchParams (argmin3 mon.size)).1) ∈ fd.components ∧
          ("H" ++ (branchParams (argmin3 mon.size)).2.1) ∈ fd.components)
    (hf : f ∈ fd.freqs) :
    getDataFromMonitor sd f k0 p mon = .ok (extractData f k0 p fd mon) := by
  have h1 : ¬(countNonzeroSizes mon.size ≠ 2) := by simp [hcnt]
  simp [getDataFromMonitor, h1, hlk, hE.1, hE.2, hH.1, hH.2, hf]

/-- C6: when the monitor is a surface, its dataset and tangential components
are present, but the requested frequency is absent, extraction fails with the
error naming that frequency and that monitor, and construction from such a
monitor returns that error (no engine object). -/
theorem missingFrequency_rejected (sd : SimulationData) (f : ℝ) (p : ℕ)
    (mon : FieldMonitor) (fd : FieldData)
    (hcnt : countNonzeroSizes mon.size = 2)
    (hlk : List.lookup mon.name sd = some fd)
    (hE : ("E" ++ (branchParams (argmin3 mon.size)).1) ∈ fd.components ∧
          ("E" ++ (branchParams (argmin3 mon.size)).2.1) ∈ fd.components)
    (hH : ("H" ++ (branchParams (argmin3 mon.size)).1) ∈ fd.components ∧
          ("H" ++ (branchParams (argmin3 mon.size)).2.1) ∈ fd.components)
    (hf : f ∉ fd.freqs) :
    (∀ k0 : ℝ, getDataFromMonitor sd f k0 p mon =
      .error (.frequencyNotFound f mon.name)) ∧
    mkNear2Far sd [mon] f p = .error (.setup (.frequencyNotFound f mon.name)) := by
  have h1 : ¬(countNonzeroSizes mon.size ≠ 2) := by simp [hcnt]
  have part1 : ∀ k0 : ℝ, getDataFromMonitor sd f k0 p mon =
      .error (.frequencyNotFound f mon.name) := by
    intro k0
    simp [getDataFromMonitor, h1, hlk, hE.1, hE.2, hH.1, hH.2, hf]
  exact ⟨part1, by rw [mkNear2Far, extractAll, part1]⟩

theorem linspace_length (s t : ℝ) (n : ℕ) : (linspace s t n).length = n := by
  rw [linspace, List.length_map, List.length_range]

/-- Extracted data always carry the squeezed grid shape. -/
theorem extractData_shape (f k0 : ℝ) (p : ℕ) (fd : FieldData)
    (mon : FieldMonitor) :
    (extractData f k0 p fd mon).arrShape =
      squeezeShape [(extractData f k0 p fd mon).uPts.length,
                    (extractData f k0 p fd mon).vPts.length] := by
  simp only [extractData, linspace_length]

/-- `np.squeeze` leaves a shape without singleton axes unchanged. -/
theorem squeezeShape_pair {a b : ℕ} (ha : a ≠ 1) (hb : b ≠ 1) :
    squeezeShape [a, b] = [a, b] := by
  simp [squeezeShape, ha, hb]

/-- C7 (amended): the `J` and `M` arrays extracted for every accepted monitor
carry the collocation grid's shape with every singleton axis squeezed away
(`np.squeeze`); in particular, whenever neither in-plane grid consists of a
single point, the arrays have exactly the grid's 2D shape, one row of grid
samples per `u` point, each of length the number of `v` points. -/
theorem currents_shape_matches_grid (sd : SimulationData) (f k0 : ℝ) (p : ℕ)
    (mon : FieldMonitor) (d : Near2FarData)
    (h : getDataFromMonitor sd f k0 p mon = .ok d) :
    d.arrShape = squeezeShape [d.uPts.length, d.vPts.length] ∧
    (d.uPts.length ≠ 1 → d.vPts.length ≠ 1 →
      d.arrShape = [d.uPts.length, d.vPts.length] ∧
      (d.J1.length = d.uPts.length ∧ ∀ row ∈ d.J1, row.length = d.vPts.length) ∧
      (d.J2.length = d.uPts.length ∧ ∀ row ∈ d.J2, row.length = d.vPts.length) ∧
      (d.M1.length = d.uPts.length ∧ ∀ row ∈ d.M1, row.length = d.vPts.length) ∧
      (d.M2.length = d.uPts.length ∧ ∀ row ∈ d.M2, row.length = d.vPts.length)) := by
  obtain ⟨fd, -, rfl⟩ := getDataFromMonitor_ok h
  refine ⟨extractData_shape f k0 p fd mon, fun hu hv => ⟨?_, ?_⟩⟩
  · rw [extractData_shape f k0 p fd mon, squeezeShape_pair hu hv]
  · refine ⟨⟨?_, ?_⟩, ⟨?_, ?_⟩, ⟨?_, ?_⟩, ⟨?_, ?_⟩⟩ <;>
      simp [extractData, build2]

/-- Fixture surface monitor: extents `(1, 1, 0)`, so the normal axis is 2;
the name holds no `'-'`. -/
def monW : FieldMonitor := { name := "m", center := fun _ => 0, size := ![1, 1, 0] }

/-- The fixture monitor's thinnest axis is axis 2. -/
theorem monW_axis : argmin3 monW.size = 2 := by
  norm_num [argmin3, monW, Matrix.cons_val_two, Matrix.tail_cons]

/-- The fixture monitor has exactly two nonzero extents. -/
theorem monW_surface : countNonzeroSizes monW.size = 2 := by
  norm_num [countNonzeroSizes, monW, Matrix.cons_val_two, Matrix.tail_cons]

/-- Fixture dataset with the tangential components for a normal-axis-2
monitor but an empty frequency list. -/
def fdW0 : FieldData :=
  { components := ["Ex", "Ey", "Hx", "Hy"], freqs := [], values := fun _ _ _ _ _ => 0 }

/-- Fixture simulation data binding the fixture monitor name to `fdW0`. -/
def sdW0 : SimulationData := [("m", fdW0)]

/-- C6, witness: requesting frequency 1 from the fixture dataset (which
stores none) makes construction fail with the error naming monitor `"m"`
and frequency `1`. -/
theorem missingFrequency_rejected_witness :
    ((1 : ℝ) ∉ fdW0.freqs) ∧
    mkNear2Far sdW0 [monW] 1 10 = .error (.setup (.frequencyNotFound 1 "m")) := by
  have hf : (1 : ℝ) ∉ fdW0.freqs := by simp [fdW0]
  exact ⟨hf, (missingFrequency_rejected sdW0 1 10 monW fdW0 monW_surface
    (by simp [List.lookup, sdW0, monW])
    (by simp [monW_axis, branchParams, fdW0])
    (by simp [monW_axis, branchParams, fdW0]) hf).2⟩

/-- Fixture dataset storing the tangential components at frequency 1. -/
def fdW : FieldData :=
  { components := ["Ex", "Ey", "Hx", "Hy"], freqs := [1], values := fun _ _ _ _ _ => 0 }

/-- Fixture simulation data binding the fixture monitor name to `fdW`. -/
def sdW : SimulationData := [("m", fdW)]

/-- The data extracted from the fixture monitor at wavenumber `2π`
(wavelength 1), giving a `10 × 10` collocation grid. -/
def dW : Near2FarData := extractData 1 (2 * Real.pi) 10 fdW monW

/-- Extraction succeeds on the fixture monitor at wavenumber `2π`. -/
theorem getData_fixture_ok :
    getDataFromMonitor sdW 1 (2 * Real.pi) 10 monW = .ok dW :=
  getDataFromMonitor_eq_ok monW_surface
    (by simp [List.lookup, sdW, monW])
    (by simp [monW_axis, branchParams, fdW])
    (by simp [monW_axis, branchParams, fdW])
    (by simp [fdW])

/-- The fixture grid has ten points along each in-plane axis. -/
theorem dW_grid_lengths : dW.uPts.length = 10 ∧ dW.vPts.length = 10 := by
  have hw : 2 * Real.pi / (2 * Real.pi) = 1 := div_self (by positivity)
  have hc10 : ⌈(10 : ℝ)⌉ = (10 : ℤ) := by norm_num
  constructor
  · simp only [dW, extractData, linspace_length, monW_axis]
    rw [hw, show (branchParams 2).2.2.1 = (0 : Fin 3) from rfl,
      show monW.size 0 = 1 from rfl,
      show ((10 : ℕ) : ℝ) * 1 / 1 = 10 by norm_num, hc10]
    rfl
  · simp only [dW, extractData, linspace_length, monW_axis]
    rw [hw, show (branchParams 2).2.2.2.1 = (1 : Fin 3) from rfl,
      show monW.size 1 = 1 from rfl,
      show ((10 : ℕ) : ℝ) * 1 / 1 = 10 by norm_num, hc10]
    rfl

/-- C7, witness at the fixture monitor on its `10 × 10` grid. -/
theorem currents_shape_matches_grid_witness :
    getDataFromMonitor sdW 1 (2 * Real.pi) 10 monW = .ok dW ∧
    dW.uPts.length ≠ 1 ∧ dW.vPts.length ≠ 1 ∧
    (dW.arrShape = [dW.uPts.length, dW.vPts.length] ∧
     (dW.J1.length = dW.uPts.length ∧ ∀ row ∈ dW.J1, row.length = dW.vPts.length) ∧
     (dW.J2.length = dW.uPts.length ∧ ∀ row ∈ dW.J2, row.length = dW.vPts.length) ∧
     (dW.M1.length = dW.uPts.length ∧ ∀ row ∈ dW.M1, row.length = dW.vPts.length) ∧
     (dW.M2.length = dW.uPts.length ∧ ∀ row ∈ dW.M2, row.length = dW.vPts.length)) := by
  have hu : dW.uPts.length ≠ 1 := by rw [dW_grid_lengths.1]; omega
  have hv : dW.vPts.length ≠ 1 := by rw [dW_grid_lengths.2]; omega
  exact ⟨getData_fixture_ok, hu, hv,
    (currents_shape_matches_grid sdW 1 (2 * Real.pi) 10 monW dW
      getData_fixture_ok).2 hu hv⟩

/-- Fixture monitor with a subwavelength first extent: at ten points per
wavelength and wavelength 1, extent `1/20` yields a single collocation point
along `u`. -/
def monS : FieldMonitor :=
  { name := "s", center := fun _ => 0, size := ![1 / 20, 1, 0] }

/-- The subwavelength fixture monitor's thinnest axis is axis 2. -/
theorem monS_axis : argmin3 monS.size = 2 := by
  norm_num [argmin3, monS, Matrix.cons_val_two, Matrix.tail_cons]

/-- The subwavelength fixture monitor has exactly two nonzero extents. -/
theorem monS_surface : countNonzeroSizes monS.size = 2 := by
  norm_num [countNonzeroSizes, monS, Matrix.cons_val_two, Matrix.tail_cons]

/-- Fixture simulation data binding the subwavelength monitor name. -/
def sdS : SimulationData := [("s", fdW)]

/-- The data extracted from the subwavelength fixture monitor at wavenumber
`2π`. -/
def dS : Near2FarData := extractData 1 (2 * Real.pi) 10 fdW monS

/-- Extraction succeeds on the subwavelength fixture monitor. -/
theorem getData_monS_ok :
    getDataFromMonitor sdS 1 (2 * Real.pi) 10 monS = .ok dS :=
  getDataFromMonitor_eq_ok monS_surface
    (by simp [List.lookup, sdS, monS])
    (by simp [monS_axis, branchParams, fdW])
    (by simp [monS_axis, branchParams, fdW])
    (by simp [fdW])

/-- The subwavelength grid is `1 × 10`. -/
theorem dS_grid_lengths : dS.uPts.length = 1 ∧ dS.vPts.length = 10 := by
  have hw : 2 * Real.pi / (2 * Real.pi) = 1 := div_self (by positivity)
  have hc10 : ⌈(10 : ℝ)⌉ = (10 : ℤ) := by norm_num
  have hchalf : ⌈(1 / 2 : ℝ)⌉ = (1 : ℤ) := by
    rw [Int.ceil_eq_iff]
    norm_num
  constructor
  · simp only [dS, extractData, linspace_length, monS_axis]
    rw [hw, show (branchParams 2).2.2.1 = (0 : Fin 3) from rfl,
      show monS.size 0 = 1 / 20 from rfl,
      show ((10 : ℕ) : ℝ) * (1 / 20) / 1 = 1 / 2 by norm_num, hchalf]
    rfl
  · simp only [dS, extractData, linspace_length, monS_axis]
    rw [hw, show (branchParams 2).2.2.2.1 = (1 : Fin 3) from rfl,
      show monS.size 1 = 1 from rfl,
      show ((10 : ℕ) : ℝ) * 1 / 1 = 10 by norm_num, hc10]
    rfl

/-- C7, counterexample to the unamended claim: the accepted subwavelength
monitor has a `1 × 10` collocation grid, but `np.squeeze` collapses the
singleton in-plane axis, so the extracted arrays are 1-D of shape `[10]`,
not the grid's 2D shape `[1, 10]`. -/
theorem currents_shape_counterexample :
    getDataFromMonitor sdS 1 (2 * Real.pi) 10 monS = .ok dS ∧
    dS.uPts.length = 1 ∧ dS.vPts.length = 10 ∧
    dS.arrShape = [10] ∧
    dS.arrShape ≠ [dS.uPts.length, dS.vPts.length] := by
  have h1 := dS_grid_lengths.1
  have h2 := dS_grid_lengths.2
  have hsh : dS.arrShape = [10] := by
    have h3 := extractData_shape 1 (2 * Real.pi) 10 fdW monS
    rw [show dS.arrShape = (extractData 1 (2 * Real.pi) 10 fdW monS).arrShape
        from rfl, h3]
    rw [show (extractData 1 (2 * Real.pi) 10 fdW monS).uPts.length = 1 from h1,
      show (extractData 1 (2 * Real.pi) 10 fdW monS).vPts.length = 10 from h2]
    simp [squeezeShape]
  refine ⟨getData_monS_ok, h1, h2, hsh, ?_⟩
  rw [hsh, h1, h2]
  simp

/-- Negating the orientation sign negates every entry of a current array. -/
theorem build2_neg (u v : List ℝ) (s : ℝ) (g : ℝ → ℝ → ℂ) :
    build2 u v (fun a b => ((-1 * s : ℝ) : ℂ) * g a b) =
    (build2 u v (fun a b => (s : ℂ) * g a b)).map (List.map (fun z => -z)) := by
  simp only [build2, List.map_map]
  have hfun : (fun a => v.map (fun b => ((-1 * s : ℝ) : ℂ) * g a b)) =
      (fun a => (List.map (fun z : ℂ => -z)) (v.map (fun b => (s : ℂ) * g a b))) := by
    funext a
    rw [List.map_map]
    refine List.map_congr_left (fun b _ => ?_)
    simp only [Function.comp_apply]
    push_cast
    ring
  rw [hfun]
  rfl

/-- C9: for two accepted monitors identical except for their name (and with
the same dataset bound to both names), the extracted data agree whenever the
names agree on containing `'-'`, and all four extracted current arrays are
exactly negated when one name contains `'-'` anywhere and the other does
not — the sign flip is keyed purely on that character's presence. -/
theorem sign_flip_iff_dash_in_name (sd : SimulationData) (f k0 : ℝ) (p : ℕ)
    (mon₁ mon₂ : FieldMonitor) (d₁ d₂ : Near2FarData)
    (h₁ : getDataFromMonitor sd f k0 p mon₁ = .ok d₁)
    (h₂ : getDataFromMonitor sd f k0 p mon₂ = .ok d₂)
    (hc : mon₂.center = mon₁.center) (hs : mon₂.size = mon₁.size)
    (hfd : List.lookup mon₂.name sd = List.lookup mon₁.name sd) :
    (mon₂.name.data.contains '-' = mon₁.name.data.contains '-' → d₂ = d₁) ∧
    (mon₁.name.data.contains '-' = false → mon₂.name.data.contains '-' = true →
      d₂.J1 = d₁.J1.map (List.map (fun z => -z)) ∧
      d₂.J2 = d₁.J2.map (List.map (fun z => -z)) ∧
      d₂.M1 = d₁.M1.map (List.map (fun z => -z)) ∧
      d₂.M2 = d₁.M2.map (List.map (fun z => -z))) := by
  obtain ⟨fd₁, hl₁, rfl⟩ := getDataFromMonitor_ok h₁
  obtain ⟨fd₂, hl₂, rfl⟩ := getDataFromMonitor_ok h₂
  rw [hl₂, hl₁] at hfd
  obtain rfl : fd₂ = fd₁ := Option.some.inj hfd
  constructor
  · intro hn
    simp only [extractData, hc, hs, hn]
  · intro hn₁ hn₂
    refine ⟨?_, ?_, ?_, ?_⟩ <;>
    · simp only [extractData, hc, hs, hn₁, hn₂, Bool.false_eq_true, if_false,
        if_true, ite_false, ite_true]
      exact build2_neg _ _ _ _

/-- Fixture monitor identical to `monW` except its name contains `'-'`
(as e.g. an index separator). -/
def monD : FieldMonitor := { name := "m-2", center := fun _ => 0, size := ![1, 1, 0] }

/-- Fixture simulation data binding both fixture monitor names to `fdW`. -/
def sdD : SimulationData := [("m", fdW), ("m-2", fdW)]

/-- The data extracted from `monW` against `sdD`. -/
def dDW : Near2FarData := extractData 1 1 10 fdW monW

/-- The data extracted from `monD` against `sdD`. -/
def dDD : Near2FarData := extractData 1 1 10 fdW monD

/-- Extraction succeeds on `monW` against `sdD`. -/
theorem getData_sdD_monW_ok : getDataFromMonitor sdD 1 1 10 monW = .ok dDW :=
  getDataFromMonitor_eq_ok monW_surface
    (by simp [List.lookup, sdD, monW])
    (by simp [monW_axis, branchParams, fdW])
    (by simp [monW_axis, branchParams, fdW])
    (by simp [fdW])

/-- Extraction succeeds on `monD` against `sdD`. -/
theorem getData_sdD_monD_ok : getDataFromMonitor sdD 1 1 10 monD = .ok dDD :=
  getDataFromMonitor_eq_ok (show countNonzeroSizes monD.size = 2 from monW_surface)
    (by simp [List.lookup, sdD, monD])
    (by simp [show argmin3 monD.size = 2 from monW_axis, branchParams, fdW])
    (by simp [show argmin3 monD.size = 2 from monW_axis, branchParams, fdW])
    (by simp [fdW])

/-- C9, witness: the monitor named `"m-2"` (a `'-'` used as an index
separator) extracts exactly the negated currents of the monitor named
`"m"`. -/
theorem sign_flip_iff_dash_in_name_witness :
    getDataFromMonitor sdD 1 1 10 monW = .ok dDW ∧
    getDataFromMonitor sdD 1 1 10 monD = .ok dDD ∧
    (dDD.J1 = dDW.J1.map (List.map (fun z => -z)) ∧
     dDD.J2 = dDW.J2.map (List.map (fun z => -z)) ∧
     dDD.M1 = dDW.M1.map (List.map (fun z => -z)) ∧
     dDD.M2 = dDW.M2.map (List.map (fun z => -z))) :=
  ⟨getData_sdD_monW_ok, getData_sdD_monD_ok,
   (sign_flip_iff_dash_in_name sdD 1 1 10 monW monD dDW dDD
      getData_sdD_monW_ok getData_sdD_monD_ok rfl rfl
      (by simp [List.lookup, sdD, monW, monD])).2
    (by decide) (by decide)⟩

/-- Scaling every stored `J` and `M` sample array of one monitor's data by a
complex constant. -/
def scaleData (c : ℂ) (d : Near2FarData) : Near2FarData :=
  { d with J1 := smul2 c d.J1, J2 := smul2 c d.J2,
           M1 := smul2 c d.M1, M2 := smul2 c d.M2 }

/-- Scaling every stored `J` and `M` sample array of an engine by a complex
constant. -/
def scaleEngine (c : ℂ) (eng : Near2Far) : Near2Far :=
  { eng with data := eng.data.map (scaleData c) }

theorem scaleEngine_spacetime_sign (c : ℂ) (eng : Near2Far) :
    (scaleEngine c eng).spacetime_sign = eng.spacetime_sign := rfl

theorem scaleEngine_k0 (c : ℂ) (eng : Near2Far) :
    (scaleEngine c eng).k0 = eng.k0 := rfl

theorem scaleEngine_origin (c : ℂ) (eng : Near2Far) :
    (scaleEngine c eng).origin = eng.origin := rfl

theorem getD_map_mul (c : ℂ) (row : List ℂ) (j : ℕ) :
    (row.map (fun z => c * z)).getD j 0 = c * row.getD j 0 := by
  simp only [List.getD_eq_getElem?_getD, List.getElem?_map]
  cases row[j]? <;> simp

/-- Trapezoidal integration is homogeneous in the samples. -/
theorem trapzL_smul (c : ℂ) (xs : List ℝ) (ys : List ℂ) :
    trapzL xs (ys.map (fun z => c * z)) = c * trapzL xs ys := by
  simp only [trapzL, getD_map_mul, Finset.mul_sum]
  exact Finset.sum_congr rfl (fun k _ => by ring)

theorem column_smul (c : ℂ) (A : List (List ℂ)) (j : ℕ) :
    (smul2 c A).map (fun row => row.getD j 0) =
    (A.map (fun row => row.getD j 0)).map (fun z => c * z) := by
  simp only [smul2, List.map_map]
  exact List.map_congr_left (fun row _ => by
    simp only [Function.comp_apply, getD_map_mul])

/-- Nested trapezoidal integration is homogeneous in the array. -/
theorem trapz2_smul (c : ℂ) (u v : List ℝ) (A : List (List ℂ)) :
    trapz2 u v (smul2 c A) = c * trapz2 u v A := by
  rw [trapz2, trapz2, ← trapzL_smul, List.map_map]
  congr 1
  exact List.map_congr_left (fun j _ => by
    simp only [Function.comp_apply]
    rw [column_smul, trapzL_smul])

/-- Scaling one factor of an elementwise product scales the product. -/
theorem mul2_smul2 (c : ℂ) (A B : List (List ℂ)) :
    mul2 (smul2 c A) B = smul2 c (mul2 A B) := by
  simp only [mul2, smul2, List.zipWith_map_left, List.map_zipWith]
  have h2 : (fun (a b : ℂ) => c * a * b) = (fun (a b : ℂ) => c * (a * b)) := by
    funext a b; ring
  rw [h2]

/-- The per-monitor surface integral is homogeneous in the current array. -/
theorem integMon_smul (sign k0 : ℝ) (origin : Fin 3 → ℝ) (θ φ : ℝ)
    (d : Near2FarData) (c : ℂ) (A : List (List ℂ)) :
    integMon sign k0 origin θ φ d (smul2 c A) =
      c * integMon sign k0 origin θ φ d A := by
  rw [integMon, integMon, mul2_smul2, trapz2_smul]

/-- The grid, center and axis of scaled data are unchanged, so its surface
integrals only rescale. -/
theorem integMon_scaleData (sign k0 : ℝ) (origin : Fin 3 → ℝ) (θ φ : ℝ)
    (d : Near2FarData) (c : ℂ) (A : List (List ℂ)) :
    integMon sign k0 origin θ φ (scaleData c d) A =
      integMon sign k0 origin θ φ d A := rfl

/-- Scaling a monitor's stored currents scales all four of its radiation
vector components. -/
theorem radiationVectorsPerMonitor_smul (sign k0 : ℝ) (origin : Fin 3 → ℝ)
    (θ φ : ℝ) (c : ℂ) (d : Near2FarData) :
    radiationVectorsPerMonitor sign k0 origin θ φ (scaleData c d) =
      (c * (radiationVectorsPerMonitor sign k0 origin θ φ d).1,
       c * (radiationVectorsPerMonitor sign k0 origin θ φ d).2.1,
       c * (radiationVectorsPerMonitor sign k0 origin θ φ d).2.2.1,
       c * (radiationVectorsPerMonitor sign k0 origin θ φ d).2.2.2) := by
  have hax : (scaleData c d).mon_axis = d.mon_axis := rfl
  have hJ1 : (scaleData c d).J1 = smul2 c d.J1 := rfl
  have hJ2 : (scaleData c d).J2 = smul2 c d.J2 := rfl
  have hM1 : (scaleData c d).M1 = smul2 c d.M1 := rfl
  have hM2 : (scaleData c d).M2 = smul2 c d.M2 := rfl
  simp only [radiationVectorsPerMonitor, hax, hJ1, hJ2, hM1, hM2,
    integMon_scaleData, integMon_smul]
  refine Prod.ext ?_ (Prod.ext ?_ (Prod.ext ?_ ?_)) <;>
    · simp only []
      split_ifs <;> ring

/-- Accumulating `c`-scaled contributions from a `c`-scaled start scales the
accumulated sum. -/
theorem foldl_add_mul (c : ℂ) (g : Near2FarData → ℂ) (l : List Near2FarData) :
    ∀ a : ℂ, l.foldl (fun acc d => acc + c * g d) (c * a) =
      c * l.foldl (fun acc d => acc + g d) a := by
  induction l with
  | nil => intro a; rfl
  | cons d t ih =>
    intro a
    simp only [List.foldl_cons]
    rw [← mul_add]
    exact ih (a + g d)

/-- Scaling every monitor's stored currents scales all four accumulated
radiation vector components. -/
theorem radiationVectors_smul (eng : Near2Far) (c : ℂ) (θ φ : ℝ) :
    radiationVectors (scaleEngine c eng) θ φ =
      (c * (radiationVectors eng θ φ).1,
       c * (radiationVectors eng θ φ).2.1,
       c * (radiationVectors eng θ φ).2.2.1,
       c * (radiationVectors eng θ φ).2.2.2) := by
  have hdata : (scaleEngine c eng).data = eng.data.map (scaleData c) := rfl
  have key : ∀ g : Near2FarData → ℂ, (∀ d, g (scaleData c d) = c * g d) →
      (eng.data.map (scaleData c)).foldl (fun acc d => acc + g d) 0 =
      c * eng.data.foldl (fun acc d => acc + g d) 0 := by
    intro g hg
    rw [List.foldl_map]
    have h1 : (fun (acc : ℂ) d => acc + g (scaleData c d)) =
        (fun (acc : ℂ) d => acc + c * g d) := by
      funext acc d; rw [hg]
    rw [h1]
    have h0 := foldl_add_mul c g eng.data 0
    rw [mul_zero] at h0
    exact h0
  simp only [radiationVectors, hdata, scaleEngine_spacetime_sign,
    scaleEngine_k0, scaleEngine_origin]
  refine Prod.ext ?_ (Prod.ext ?_ (Prod.ext ?_ ?_)) <;>
    · simp only []
      exact key _ (fun d => by rw [radiationVectorsPerMonitor_smul])

/-- `z·conj(z/η0)` equals the real value `‖z‖²/η0`. -/
theorem mul_conj_div_eq (z : ℂ) :
    z * (starRingEnd ℂ) (z / (ETA_0 : ℂ)) = ((Complex.normSq z / ETA_0 : ℝ) : ℂ) := by
  rw [map_div₀, Complex.conj_ofReal, mul_div_assoc', Complex.mul_conj,
    Complex.ofReal_div]

theorem re_mul_conj_div (z : ℂ) :
    (z * (starRingEnd ℂ) (z / (ETA_0 : ℂ))).re = Complex.normSq z / ETA_0 := by
  rw [mul_conj_div_eq, Complex.ofReal_re]

theorem re_mul_conj_div_smul (c z : ℂ) :
    ((c * z) * (starRingEnd ℂ) ((c * z) / (ETA_0 : ℂ))).re =
    Complex.abs c ^ 2 * (z * (starRingEnd ℂ) (z / (ETA_0 : ℂ))).re := by
  rw [re_mul_conj_div, re_mul_conj_div, Complex.normSq_mul, ← Complex.sq_abs c]
  ring

/-- C3: multiplying every stored `J` and `M` sample array by a complex
constant `c` multiplies both far-field vectors returned by `fieldsSpherical`
by `c`, and multiplies `powerSpherical` and `radarCrossSection` by `|c|²`,
at every observation point. -/
theorem scaling_linearity (eng : Near2Far) (c : ℂ) (r θ φ : ℝ) :
    (∀ i, (fieldsSpherical (scaleEngine c eng) r θ φ).1 i =
        c * (fieldsSpherical eng r θ φ).1 i) ∧
    (∀ i, (fieldsSpherical (scaleEngine c eng) r θ φ).2 i =
        c * (fieldsSpherical eng r θ φ).2 i) ∧
    powerSpherical (scaleEngine c eng) r θ φ =
      Complex.abs c ^ 2 * powerSpherical eng r θ φ ∧
    radarCrossSection (scaleEngine c eng) r θ φ =
      Complex.abs c ^ 2 * radarCrossSection eng r θ φ := by
  have hE : ∀ i, (fieldsSpherical (scaleEngine c eng) r θ φ).1 i =
      c * (fieldsSpherical eng r θ φ).1 i := by
    intro i
    simp only [fieldsSpherical, scaleEngine_origin, scaleEngine_k0,
      scaleEngine_spacetime_sign, radiationVectors_smul]
    fin_cases i <;>
      · simp
        try ring
  have hH : ∀ i, (fieldsSpherical (scaleEngine c eng) r θ φ).2 i =
      c * (fieldsSpherical eng r θ φ).2 i := by
    intro i
    simp only [fieldsSpherical, scaleEngine_origin, scaleEngine_k0,
      scaleEngine_spacetime_sign, radiationVectors_smul]
    fin_cases i <;>
      · simp
        try ring
  refine ⟨hE, hH, ?_, ?_⟩
  · obtain ⟨a, b, hEs⟩ : ∃ a b : ℂ, fieldsSpherical eng r θ φ =
        (![0, a, b], ![0, -b / (ETA_0 : ℂ), a / (ETA_0 : ℂ)]) := ⟨_, _, rfl⟩
    obtain ⟨a2, b2, hEs2⟩ : ∃ a b : ℂ, fieldsSpherical (scaleEngine c eng) r θ φ =
        (![0, a, b], ![0, -b / (ETA_0 : ℂ), a / (ETA_0 : ℂ)]) := ⟨_, _, rfl⟩
    have ha : a2 = c * a := by
      have h1 := hE 1
      rw [hEs, hEs2] at h1
      simpa using h1
    have hb : b2 = c * b := by
      have h1 := hE 2
      rw [hEs, hEs2] at h1
      simpa using h1
    simp only [powerSpherical, hEs, hEs2, ha, hb, Matrix.cons_val_one,
      Matrix.head_cons, Matrix.cons_val_two, Matrix.tail_cons]
    have hneg : -(c * b) = c * -b := by ring
    rw [hneg, re_mul_conj_div_smul, re_mul_conj_div_smul]
    ring
  · simp only [radarCrossSection, scaleEngine_origin, scaleEngine_k0,
      scaleEngine_spacetime_sign, radiationVectors_smul]
    have h1 : ∀ x y : ℂ, c * x + (ETA_0 : ℂ) * (c * y) =
        c * (x + (ETA_0 : ℂ) * y) := fun x y => by ring
    have h2 : ∀ x y : ℂ, c * x - (ETA_0 : ℂ) * (c * y) =
        c * (x - (ETA_0 : ℂ) * y) := fun x y => by ring
    rw [h1, h2, map_mul, map_mul]
    ring

theorem extractAll_nil (sd : SimulationData) (f k0 : ℝ) (p : ℕ) :
    extractAll sd f k0 p [] = .ok [] := rfl

/-- Inversion for the extraction loop on a non-empty monitor list. -/
theorem extractAll_cons_ok {sd : SimulationData} {f k0 : ℝ} {p : ℕ}
    {mon : FieldMonitor} {rest : List FieldMonitor} {ds : List Near2FarData}
    (h : extractAll sd f k0 p (mon :: rest) = .ok ds) :
    ∃ d tail, getDataFromMonitor sd f k0 p mon = .ok d ∧
      extractAll sd f k0 p rest = .ok tail ∧ ds = d :: tail := by
  rw [extractAll] at h
  split at h
  · exact absurd h (by simp)
  · rename_i d hd
    split at h
    · exact absurd h (by simp)
    · rename_i tail htail
      exact ⟨d, tail, hd, htail, (Except.ok.inj h).symm⟩

/-- The extraction loop succeeds on a cons whenever head and tail succeed. -/
theorem extractAll_cons_of {sd : SimulationData} {f k0 : ℝ} {p : ℕ}
    {mon : FieldMonitor} {rest : List FieldMonitor} {d : Near2FarData}
    {tail : List Near2FarData}
    (hd : getDataFromMonitor sd f k0 p mon = .ok d)
    (ht : extractAll sd f k0 p rest = .ok tail) :
    extractAll sd f k0 p (mon :: rest) = .ok (d :: tail) := by
  rw [extractAll, hd, ht]

/-- Each monitor of a successfully extracted list extracts successfully. -/
theorem extractAll_ok_forall {sd : SimulationData} {f k0 : ℝ} {p : ℕ} :
    ∀ {l : List FieldMonitor} {ds : List Near2FarData},
      extractAll sd f k0 p l = .ok ds →
      ∀ mon ∈ l, ∃ d, getDataFromMonitor sd f k0 p mon = .ok d := by
  intro l
  induction l with
  | nil => intro ds _ mon hm; cases hm
  | cons mon rest ih =>
    intro ds h m hm
    obtain ⟨d, tail, hd, ht, -⟩ := extractAll_cons_ok h
    rcases List.mem_cons.mp hm with rfl | hm'
    · exact ⟨d, hd⟩
    · exact ih ht m hm'

/-- The extraction loop succeeds whenever each monitor extracts
successfully. -/
theorem extractAll_of_forall {sd : SimulationData} {f k0 : ℝ} {p : ℕ} :
    ∀ l : List FieldMonitor,
      (∀ mon ∈ l, ∃ d, getDataFromMonitor sd f k0 p mon = .ok d) →
      ∃ ds, extractAll sd f k0 p l = .ok ds := by
  intro l
  induction l with
  | nil => intro _; exact ⟨[], rfl⟩
  | cons mon rest ih =>
    intro h
    obtain ⟨d, hd⟩ := h mon (List.mem_cons_self mon rest)
    obtain ⟨tail, ht⟩ := ih (fun m hm => h m (List.mem_cons_of_mem _ hm))
    exact ⟨d :: tail, extractAll_cons_of hd ht⟩

/-- The extracted data keep each monitor's center, in order. -/
theorem extractAll_ok_centers {sd : SimulationData} {f k0 : ℝ} {p : ℕ} :
    ∀ {l : List FieldMonitor} {ds : List Near2FarData},
      extractAll sd f k0 p l = .ok ds →
      ds.map (fun d => d.center) = l.map (fun m => m.center) := by
  intro l
  induction l with
  | nil => intro ds h; cases (Except.ok.inj h); rfl
  | cons mon rest ih =>
    intro ds h
    obtain ⟨d, tail, hd, ht, rfl⟩ := extractAll_cons_ok h
    obtain ⟨fd, -, rfl⟩ := getDataFromMonitor_ok hd
    simp only [List.map_cons, ih ht]
    rfl

/-- Extraction results of permuted monitor lists are permutations of each
other (extraction is per-monitor). -/
theorem extractAll_perm {sd : SimulationData} {f k0 : ℝ} {p : ℕ}
    {l l' : List FieldMonitor} (hp : l.Perm l') :
    ∀ {ds ds' : List Near2FarData}, extractAll sd f k0 p l = .ok ds →
      extractAll sd f k0 p l' = .ok ds' → ds.Perm ds' := by
  induction hp with
  | nil =>
    intro ds ds' h h'
    cases (Except.ok.inj h)
    cases (Except.ok.inj h')
    exact List.Perm.refl _
  | cons x _ ih =>
    intro ds ds' h h'
    obtain ⟨d, t, hd, ht, rfl⟩ := extractAll_cons_ok h
    obtain ⟨d2, t2, hd2, ht2, rfl⟩ := extractAll_cons_ok h'
    obtain rfl : d2 = d := Except.ok.inj (hd2.symm.trans hd)
    exact (ih ht ht2).cons _
  | swap x y t =>
    intro ds ds' h h'
    obtain ⟨dy, s1, hy, hs1, rfl⟩ := extractAll_cons_ok h
    obtain ⟨dx, s2, hx, hs2, rfl⟩ := extractAll_cons_ok hs1
    obtain ⟨dx2, s3, hx2, hs3, rfl⟩ := extractAll_cons_ok h'
    obtain ⟨dy2, s4, hy2, hs4, rfl⟩ := extractAll_cons_ok hs3
    obtain rfl : dx2 = dx := Except.ok.inj (hx2.symm.trans hx)
    obtain rfl : dy2 = dy := Except.ok.inj (hy2.symm.trans hy)
    obtain rfl : s4 = s2 := Except.ok.inj (hs4.symm.trans hs2)
    exact List.Perm.swap _ _ _
  | trans p1 _ ih1 ih2 =>
    intro ds ds' h h'
    have hall : ∀ mon ∈ _, ∃ d, getDataFromMonitor sd f k0 p mon = .ok d :=
      fun m hm => extractAll_ok_forall h m (p1.mem_iff.mpr hm)
    obtain ⟨ds₂, h₂⟩ := extractAll_of_forall _ hall
    exact (ih1 h h₂).trans (ih2 h₂ h')

/-- Inversion for construction: a successful `__init__` extracted a
non-empty data list and set the origin to summed centers over the count. -/
theorem mkNear2Far_ok {sd : SimulationData} {mons : List FieldMonitor}
    {f : ℝ} {p : ℕ} {eng : Near2Far}
    (h : mkNear2Far sd mons f p = .ok eng) :
    ∃ ds, extractAll sd f (2 * Real.pi * f / C_0) p mons = .ok ds ∧ ds ≠ [] ∧
      eng = { spacetime_sign := 1, frequency := f, k0 := 2 * Real.pi * f / C_0,
              data := ds,
              origin := fun i => (ds.map (fun d => d.center i)).sum / ds.length } := by
  simp only [mkNear2Far] at h
  split at h
  · exact absurd h (by simp)
  · rename_i ds hds
    split at h
    · exact absurd h (by simp)
    · rename_i hlen
      refine ⟨ds, hds, ?_, (Except.ok.inj h).symm⟩
      intro hnil
      exact hlen (by simp [hnil])

theorem foldl_add_eq_sum (g : Near2FarData → ℂ) (l : List Near2FarData) :
    ∀ a : ℂ, l.foldl (fun acc d => acc + g d) a = a + (l.map g).sum := by
  induction l with
  | nil => intro a; simp
  | cons d t ih =>
    intro a
    simp only [List.foldl_cons, List.map_cons, List.sum_cons]
    rw [ih (a + g d)]
    ring

/-- Engines with the same sign, wavenumber and origin, and permuted data
lists, accumulate the same radiation vectors. -/
theorem radiationVectors_perm (e1 e2 : Near2Far)
    (hs : e1.spacetime_sign = e2.spacetime_sign) (hk : e1.k0 = e2.k0)
    (ho : e1.origin = e2.origin) (hd : e1.data.Perm e2.data) :
    ∀ θ φ : ℝ, radiationVectors e1 θ φ = radiationVectors e2 θ φ := by
  intro θ φ
  simp only [radiationVectors, hs, hk, ho]
  refine Prod.ext ?_ (Prod.ext ?_ (Prod.ext ?_ ?_)) <;>
    · simp only []
      rw [foldl_add_eq_sum, foldl_add_eq_sum, List.Perm.sum_eq (hd.map _)]

/-- Engines with the same sign, wavenumber and origin, and permuted data
lists, return the same far fields. -/
theorem fieldsSpherical_congr (e1 e2 : Near2Far)
    (hs : e1.spacetime_sign = e2.spacetime_sign) (hk : e1.k0 = e2.k0)
    (ho : e1.origin = e2.origin) (hd : e1.data.Perm e2.data) :
    ∀ r θ φ : ℝ, fieldsSpherical e1 r θ φ = fieldsSpherical e2 r θ φ := by
  intro r θ φ
  simp only [fieldsSpherical, hs, hk, ho, radiationVectors_perm e1 e2 hs hk ho hd]

theorem powerSpherical_congr (e1 e2 : Near2Far)
    (hfld : ∀ r θ φ : ℝ, fieldsSpherical e1 r θ φ = fieldsSpherical e2 r θ φ) :
    ∀ r θ φ : ℝ, powerSpherical e1 r θ φ = powerSpherical e2 r θ φ := by
  intro r θ φ
  simp only [powerSpherical, hfld r θ φ]

theorem radarCrossSection_congr (e1 e2 : Near2Far)
    (hs : e1.spacetime_sign = e2.spacetime_sign) (hk : e1.k0 = e2.k0)
    (ho : e1.origin = e2.origin) (hd : e1.data.Perm e2.data) :
    ∀ r θ φ : ℝ, radarCrossSection e1 r θ φ = radarCrossSection e2 r θ φ := by
  intro r θ φ
  simp only [radarCrossSection, hs, hk, ho,
    radiationVectors_perm e1 e2 hs hk ho hd]

/-- C4: for every successful construction the origin is the component-wise
arithmetic mean of the monitors' centers, and re-ordering the monitor list
yields an engine with the same origin and identical query results
(fields, power, radar cross section) at every observation point. -/
theorem origin_centroid_perm_invariant (sd : SimulationData)
    (mons mons' : List FieldMonitor) (f : ℝ) (p : ℕ) (eng : Near2Far)
    (h : mkNear2Far sd mons f p = .ok eng) (hperm : mons.Perm mons') :
    (∀ i, eng.origin i = (mons.map (fun m => m.center i)).sum / mons.length) ∧
    ∃ eng', mkNear2Far sd mons' f p = .ok eng' ∧ eng'.origin = eng.origin ∧
      (∀ r θ φ : ℝ, fieldsSpherical eng' r θ φ = fieldsSpherical eng r θ φ) ∧
      (∀ r θ φ : ℝ, powerSpherical eng' r θ φ = powerSpherical eng r θ φ) ∧
      (∀ r θ φ : ℝ, radarCrossSection eng' r θ φ = radarCrossSection eng r θ φ) := by
  obtain ⟨ds, hds, hne, rfl⟩ := mkNear2Far_ok h
  have hcenters := extractAll_ok_centers hds
  have hlen : ds.length = mons.length := by
    have h2 := congrArg List.length hcenters
    simpa using h2
  have hsum : ∀ i, ds.map (fun d => d.center i) = mons.map (fun m => m.center i) := by
    intro i
    have h2 := congrArg (List.map (fun c : Fin 3 → ℝ => c i)) hcenters
    simpa [List.map_map, Function.comp] using h2
  constructor
  · intro i
    show (ds.map (fun d => d.center i)).sum / ds.length = _
    rw [hlen, hsum i]
  · have hall : ∀ mon ∈ mons', ∃ d,
        getDataFromMonitor sd f (2 * Real.pi * f / C_0) p mon = .ok d :=
      fun m hm => extractAll_ok_forall hds m (hperm.mem_iff.mpr hm)
    obtain ⟨ds', hds'⟩ := extractAll_of_forall mons' hall
    have hdperm : ds.Perm ds' := extractAll_perm hperm hds hds'
    have hne' : ds' ≠ [] := by
      intro hnil
      exact hne (List.Perm.eq_nil (hnil ▸ hdperm))
    have heng' : mkNear2Far sd mons' f p = .ok
        { spacetime_sign := 1, frequency := f, k0 := 2 * Real.pi * f / C_0,
          data := ds',
          origin := fun i => (ds'.map (fun d => d.center i)).sum / ds'.length } := by
      simp only [mkNear2Far, hds']
      rw [if_neg (fun h0 => hne' (List.length_eq_zero.mp h0))]
    have horig : (fun i => (ds'.map (fun d => d.center i)).sum / (ds'.length : ℝ)) =
        (fun i => (ds.map (fun d => d.center i)).sum / (ds.length : ℝ)) := by
      funext i
      rw [List.Perm.sum_eq (hdperm.map fun d => d.center i), hdperm.length_eq]
    refine ⟨_, heng', horig, ?_, ?_, ?_⟩
    · exact fieldsSpherical_congr _ _ rfl rfl horig hdperm.symm
    · exact powerSpherical_congr _ _
        (fieldsSpherical_congr _ _ rfl rfl horig hdperm.symm)
    · exact radarCrossSection_congr _ _ rfl rfl horig hdperm.symm

/-- The wavenumber of the fixture construction at frequency 1. -/
def k0W : ℝ := 2 * Real.pi * 1 / C_0

/-- The data extracted from the fixture monitor during fixture
construction. -/
def dW4 : Near2FarData := extractData 1 k0W 10 fdW monW

/-- The engine built by the fixture construction. -/
def engW4 : Near2Far :=
  { spacetime_sign := 1, frequency := 1, k0 := k0W, data := [dW4],
    origin := fun i => (([dW4]).map (fun d => d.center i)).sum / (([dW4]).length : ℝ) }

/-- The fixture construction succeeds. -/
theorem mkNear2Far_fixture_ok : mkNear2Far sdW [monW] 1 10 = .ok engW4 := by
  have hd : getDataFromMonitor sdW 1 k0W 10 monW = .ok dW4 :=
    getDataFromMonitor_eq_ok monW_surface
      (by simp [List.lookup, sdW, monW])
      (by simp [monW_axis, branchParams, fdW])
      (by simp [monW_axis, branchParams, fdW])
      (by simp [fdW])
  have hall : extractAll sdW 1 k0W 10 [monW] = .ok [dW4] :=
    extractAll_cons_of hd (extractAll_nil sdW 1 k0W 10)
  have hk : (2 * Real.pi * (1 : ℝ) / C_0) = k0W := rfl
  simp only [mkNear2Far, hk, hall]
  rfl

/-- C4, witness: the fixture construction, with the identity permutation. -/
theorem origin_centroid_perm_invariant_witness :
    mkNear2Far sdW [monW] 1 10 = .ok engW4 ∧
    ((∀ i, engW4.origin i =
        (([monW]).map (fun m => m.center i)).sum / (([monW]).length : ℝ)) ∧
      ∃ eng', mkNear2Far sdW [monW] 1 10 = .ok eng' ∧ eng'.origin = engW4.origin ∧
        (∀ r θ φ : ℝ, fieldsSpherical eng' r θ φ = fieldsSpherical engW4 r θ φ) ∧
        (∀ r θ φ : ℝ, powerSpherical eng' r θ φ = powerSpherical engW4 r θ φ) ∧
        (∀ r θ φ : ℝ,
          radarCrossSection eng' r θ φ = radarCrossSection engW4 r θ φ)) :=
  ⟨mkNear2Far_fixture_ok,
   origin_centroid_perm_invariant sdW [monW] [monW] 1 10 engW4
     mkNear2Far_fixture_ok (List.Perm.refl _)⟩
